import Mathlib

/-!
Verification of the document-formatting pipeline: a shallow embedding of
the role classifier, style-rule resolver and the two rendering backends
(`analyze_docx.py`, `format_docx.py`, `generate_latex.py`), together with
theorems settling the stated properties.

Strings are modelled as `List Char`; JSON numbers as `ℚ`; absent JSON
fields as `Option.none`.  Python numeral formatting (`f"{x}cm"`) is
abstracted by a fixed injective rendering `qRepr`; no property below
depends on its exact digits.
-/

/-- Python `str.isspace` on the ASCII whitespace characters. -/
def pyIsSpace (c : Char) : Bool :=
  c == ' ' || c == '\t' || c == '\n' || c == '\r' || c == '\x0b' || c == '\x0c'

/-- Python `str.strip`: drop whitespace from both ends. -/
def pyStrip (l : List Char) : List Char :=
  ((l.dropWhile pyIsSpace).reverse.dropWhile pyIsSpace).reverse

/-- Fuel-driven digit extraction; the fuel argument only bounds the
recursion depth and is always sufficient at the call site. -/
def natDigitsAux : Nat → Nat → List Char
  | 0, _ => []
  | fuel + 1, n =>
    if n < 10 then [Char.ofNat (48 + n)]
    else natDigitsAux fuel (n / 10) ++ [Char.ofNat (48 + n % 10)]

/-- Decimal digits of a natural number, most significant first (Python `str(n)`). -/
def natDigits (n : Nat) : List Char :=
  natDigitsAux (n + 1) n

/-- Python `int(...)` on a digit run: base-10 value. -/
def digitsToNat (ds : List Char) : Nat :=
  ds.foldl (fun a c => 10 * a + (c.toNat - 48)) 0

/-- Python truncating `int()` on a rational (toward zero). -/
def pyInt (q : ℚ) : ℤ :=
  if 0 ≤ q then ⌊q⌋ else ⌈q⌉

/-- Join a list of strings with a separator (Python `sep.join`). -/
def joinSep (sep : List Char) : List (List Char) → List Char
  | [] => []
  | [x] => x
  | x :: y :: rest => x ++ sep ++ joinSep sep (y :: rest)

/-- First-seen-order deduplication (Python `dict.fromkeys`). -/
def dedupFirst : List (List Char) → List (List Char)
  | [] => []
  | x :: xs => x :: dedupFirst (xs.filter (fun y => y ≠ x))
  termination_by l => l.length
  decreasing_by exact Nat.lt_succ_of_le (List.length_filter_le _ _)

/-- First-seen-order deduplication for rationals (Python `dict.fromkeys`). -/
def dedupFirstQ : List ℚ → List ℚ
  | [] => []
  | x :: xs => x :: dedupFirstQ (xs.filter (fun y => y ≠ x))
  termination_by l => l.length
  decreasing_by exact Nat.lt_succ_of_le (List.length_filter_le _ _)

/-- Round a rational to the nearest integer, ties to even (Python `round`). -/
def roundHalfEven (q : ℚ) : ℤ :=
  let f : ℤ := ⌊q⌋
  let r : ℚ := q - f
  if r < 1/2 then f
  else if 1/2 < r then f + 1
  else if f % 2 = 0 then f else f + 1

/-- Python `round(x, 1)`. -/
def roundTo1 (q : ℚ) : ℚ :=
  (roundHalfEven (10 * q) : ℚ) / 10

/-- `emu_to_pt` from `analyze_docx.py`: `round(emu / 12700, 1)`. -/
def emu_to_pt (emu : ℚ) : ℚ :=
  roundTo1 (emu / 12700)

/-- Digits of an integer with optional sign. -/
def intDigits (i : ℤ) : List Char :=
  if i < 0 then '-' :: natDigits i.natAbs else natDigits i.natAbs

/-- Best-effort rendering of a rational for interpolation into output text
(abstracts Python float formatting; no proved property inspects its digits). -/
def qRepr (q : ℚ) : List Char :=
  if q.den = 1 then intDigits q.num
  else intDigits q.num ++ '/' :: natDigits q.den

/-- Python `needle in haystack` on strings (substring containment). -/
def containsSub (pat : List Char) : List Char → Bool
  | [] => decide (pat = [])
  | x :: t => pat.isPrefixOf (x :: t) || containsSub pat t

/-- Strip a literal word off the front of a string, or fail. -/
def stripPre : List Char → List Char → Option (List Char)
  | [], l => some l
  | _ :: _, [] => none
  | a :: as, b :: bs => if a = b then stripPre as bs else none

/-- CJK Unified Ideographs range test (U+4E00 to U+9FFF). -/
def isCJK (c : Char) : Bool :=
  0x4e00 ≤ c.toNat && c.toNat ≤ 0x9fff

/-- `detect_chinese` from `generate_latex.py`: any CJK character present. -/
def detect_chinese (t : List Char) : Bool :=
  t.any isCJK

/- ## Escaping (`escape_latex`, generate_latex.py lines 103-121) -/

/-- One pass of Python `str.replace` for a single-character pattern. -/
def replaceChar (c : Char) (r : List Char) : List Char → List Char
  | [] => []
  | x :: l => (if x = c then r else [x]) ++ replaceChar c r l

/-- Replacement text for `~`. -/
def tildeRepl : List Char :=
  ['\\', 't', 'e', 'x', 't', 'a', 's', 'c', 'i', 'i', 't', 'i', 'l', 'd', 'e', '{', '}']

/-- Replacement text for `^`. -/
def circRepl : List Char :=
  ['\\', 't', 'e', 'x', 't', 'a', 's', 'c', 'i', 'i', 'c', 'i', 'r', 'c', 'u', 'm', '{', '}']

/-- `escape_latex`: the nine `str.replace` calls applied in the source's
dictionary order `& % $ # _ { } ~ ^`. -/
def escape_latex (l : List Char) : List Char :=
  replaceChar '^' circRepl
    (replaceChar '~' tildeRepl
      (replaceChar '}' ['\\', '}']
        (replaceChar '{' ['\\', '{']
          (replaceChar '_' ['\\', '_']
            (replaceChar '#' ['\\', '#']
              (replaceChar '$' ['\\', '$']
                (replaceChar '%' ['\\', '%']
                  (replaceChar '&' ['\\', '&'] l))))))))

/-- The per-character image of the full escape pass. -/
def escRepl (c : Char) : List Char :=
  if c = '&' then ['\\', '&']
  else if c = '%' then ['\\', '%']
  else if c = '$' then ['\\', '$']
  else if c = '#' then ['\\', '#']
  else if c = '_' then ['\\', '_']
  else if c = '{' then ['\\', '{']
  else if c = '}' then ['\\', '}']
  else if c = '~' then tildeRepl
  else if c = '^' then circRepl
  else [c]

/-- The four characters the round-trip property talks about. -/
def isSpecial4 (c : Char) : Bool :=
  c == '%' || c == '&' || c == '$' || c == '_'

/-- `escOKAfter p l`: every `%`, `&`, `$`, `_` occurring in `l` is immediately
preceded by a backslash (`p` plays the role of the character just before `l`). -/
def escOKAfter (p : Char) : List Char → Bool
  | [] => true
  | b :: rest => (!isSpecial4 b || p == '\\') && escOKAfter b rest

/- ## Data model: roles, formatting records, style rules, content tree -/

/-- The closed role key space used by the style-rule dictionaries
(`title`, `heading_<N>`, `body`, ... as string keys in the source). -/
inductive Role where
  | title
  | authors
  | affiliations
  | abstract_label
  | abstract
  | keywords
  | heading (n : Nat)
  | body
  | caption
  | reference
  deriving DecidableEq, Repr

/-- A line-spacing value: a numeric multiple or a `"<x>pt"` string. -/
inductive LineSpacingVal where
  | num (q : ℚ)
  | str (s : List Char)
  deriving DecidableEq, Repr

/-- A per-role formatting record; every field optional (absent JSON key or
null both modelled as `none`). -/
structure Fmt where
  font_names : Option (List (List Char)) := none
  font_sizes_pt : Option (List ℚ) := none
  bold : Option Bool := none
  italic : Option Bool := none
  alignment : Option (List Char) := none
  line_spacing : Option LineSpacingVal := none
  line_spacing_rule : Option (List Char) := none
  first_line_indent_cm : Option ℚ := none
  space_before_pt : Option ℚ := none
  space_after_pt : Option ℚ := none
  left_indent_cm : Option ℚ := none
  deriving DecidableEq, Repr

/-- The empty formatting record (Python `{}`). -/
def emptyFmt : Fmt := {}

/-- The four page margins, each optional, in centimeters. -/
structure Margins where
  top_cm : Option ℚ := none
  bottom_cm : Option ℚ := none
  left_cm : Option ℚ := none
  right_cm : Option ℚ := none
  deriving DecidableEq, Repr

/-- One page-layout section descriptor (the fields the backends read). -/
structure PageSec where
  margins : Margins := {}
  paper_size : Option (List Char) := none
  columns : Option Nat := none
  deriving DecidableEq, Repr

/-- The Style-Rule Model as consumed by the backends: the
`paragraph_formatting` mapping and the `page_layout` list. -/
structure StyleRules where
  paragraph_formatting : Role → Option Fmt
  page_layout : List PageSec := []

/-- A section of the Content Tree: heading, optional explicit level,
body paragraphs, and nested subsections. -/
inductive Sec where
  | mk (heading : List Char) (level : Option Nat) (content : List (List Char))
      (subsections : List Sec)

/-- Heading text of a section. -/
def Sec.heading : Sec → List Char
  | .mk h _ _ _ => h

/-- Explicit level field of a section, when present. -/
def Sec.level : Sec → Option Nat
  | .mk _ l _ _ => l

/-- Body paragraphs of a section. -/
def Sec.content : Sec → List (List Char)
  | .mk _ _ c _ => c

/-- Subsections of a section. -/
def Sec.subsections : Sec → List Sec
  | .mk _ _ _ s => s

/-- The Content Tree (author-supplied manuscript content); absent fields
modelled as empty. -/
structure Content where
  title : List Char := []
  authors : List (List Char) := []
  affiliations : List (List Char) := []
  abstract : List Char := []
  keywords : List (List Char) := []
  sections : List Sec := []
  references : List (List Char) := []
  acknowledgments : List Char := []

/- ## Typesetting backend (`generate_latex.py`) -/

/-- `has_chinese_content`: collects title, abstract, the space-joined
keywords, and each top-level section's heading and content paragraphs,
then tests each collected text for a CJK character.  (The source loop of
lines 68-70 visits `content["sections"]` only; it does not recurse into
`subsections`.) -/
def has_chinese_content (c : Content) : Bool :=
  let texts := [c.title, c.abstract, joinSep [' '] c.keywords]
    ++ c.sections.flatMap (fun s => s.heading :: s.content)
  texts.any detect_chinese

/-- Result of `build_document_class`, decomposed into the source's local
values (base font size, option strings, class name) before f-string
interpolation. -/
structure DocClass where
  base_size : ℤ
  opts : List (List Char)
  name : List Char
  deriving DecidableEq, Repr

/-- `build_document_class` (generate_latex.py lines 124-157): base font
size from the first `body` font size via `int()` truncation then snapping
to 10/11/12; paper option by substring test on the lowered paper size
(default `"A4"`); `twocolumn` when `columns == 2`; class `ctexart` when
`is_chinese` else `article`. -/
def build_document_class (rules : StyleRules) (is_chinese : Bool) : DocClass :=
  let sec := rules.page_layout.headD {}
  let sizes : List ℚ :=
    match rules.paragraph_formatting Role.body with
    | none => [12]
    | some f => f.font_sizes_pt.getD [12]
  let base0 : ℤ := match sizes with
    | [] => 12
    | s :: _ => pyInt s
  let base_size : ℤ := if base0 ≤ 10 then 10 else if base0 ≤ 11 then 11 else 12
  let paper := (sec.paper_size.getD ("A4".toList)).map Char.toLower
  let paper_opt := if containsSub ("a4".toList) paper
    then "a4paper".toList else "letterpaper".toList
  let col_opt : List (List Char) :=
    if sec.columns.getD 1 = 2 then ["twocolumn".toList] else []
  { base_size := base_size
    opts := [intDigits base_size ++ "pt".toList, paper_opt] ++ col_opt
    name := if is_chinese then "ctexart".toList else "article".toList }

/-- Rendered `\documentclass[...]{...}` line. -/
def render_document_class (d : DocClass) : List Char :=
  "\\documentclass[".toList ++ joinSep (", ".toList) d.opts
    ++ ']' :: '{' :: d.name ++ ['}']

/-- Python truthiness of an optional number (`None` and `0` are falsy). -/
def truthyQ : Option ℚ → Bool
  | none => false
  | some q => q != 0

/-- `build_geometry` (generate_latex.py lines 160-179): one `side=<x>cm`
part per truthy margin of the first page-layout section, falling back to
the uniform 2.54cm default when no part was produced. -/
def build_geometry (rules : StyleRules) : List Char :=
  let sec := rules.page_layout.headD {}
  let m := sec.margins
  let parts : List (List Char) :=
    (if truthyQ m.top_cm then ["top=".toList ++ qRepr (m.top_cm.getD 0) ++ "cm".toList] else [])
    ++ (if truthyQ m.bottom_cm then ["bottom=".toList ++ qRepr (m.bottom_cm.getD 0) ++ "cm".toList] else [])
    ++ (if truthyQ m.left_cm then ["left=".toList ++ qRepr (m.left_cm.getD 0) ++ "cm".toList] else [])
    ++ (if truthyQ m.right_cm then ["right=".toList ++ qRepr (m.right_cm.getD 0) ++ "cm".toList] else [])
  let parts := if parts = [] then
      ["top=2.54cm".toList, "bottom=2.54cm".toList, "left=2.54cm".toList, "right=2.54cm".toList]
    else parts
  "\\usepackage[".toList ++ joinSep (", ".toList) parts
    ++ ']' :: '{' :: "geometry".toList ++ ['}']

/-- Replace the top margin of the first page-layout section, if any. -/
def setTopMargin : StyleRules → Option ℚ → StyleRules
  | ⟨pf, []⟩, _ => ⟨pf, []⟩
  | ⟨pf, ps :: rest⟩, v => ⟨pf, { ps with margins := { ps.margins with top_cm := v } } :: rest⟩

/-- Replace the bottom margin of the first page-layout section, if any. -/
def setBottomMargin : StyleRules → Option ℚ → StyleRules
  | ⟨pf, []⟩, _ => ⟨pf, []⟩
  | ⟨pf, ps :: rest⟩, v => ⟨pf, { ps with margins := { ps.margins with bottom_cm := v } } :: rest⟩

/-- Replace the left margin of the first page-layout section, if any. -/
def setLeftMargin : StyleRules → Option ℚ → StyleRules
  | ⟨pf, []⟩, _ => ⟨pf, []⟩
  | ⟨pf, ps :: rest⟩, v => ⟨pf, { ps with margins := { ps.margins with left_cm := v } } :: rest⟩

/-- Replace the right margin of the first page-layout section, if any. -/
def setRightMargin : StyleRules → Option ℚ → StyleRules
  | ⟨pf, []⟩, _ => ⟨pf, []⟩
  | ⟨pf, ps :: rest⟩, v => ⟨pf, { ps with margins := { ps.margins with right_cm := v } } :: rest⟩

/- ## Flowing-document backend (`format_docx.py`) -/

/-- Dict overwrite of one key: take the new value when it is non-null
(`if role_data.get(key) is not None: fmt[key] = role_data[key]`). -/
def pyMerge {α : Type} (new old : Option α) : Option α :=
  match new with
  | some v => some v
  | none => old

/-- `get_role_format` (format_docx.py lines 249-264): start from the
default record (empty when no default), then overwrite each of the ten
fixed fields with the extracted entry's value when that value is present.
`left_indent_cm` is not in the source's key list and is never overwritten. -/
def get_role_format (rules : StyleRules) (role : Role) (defaults : Option Fmt) : Fmt :=
  let fmt := defaults.getD emptyFmt
  match rules.paragraph_formatting role with
  | none => fmt
  | some rd =>
    { font_names := pyMerge rd.font_names fmt.font_names
      font_sizes_pt := pyMerge rd.font_sizes_pt fmt.font_sizes_pt
      bold := pyMerge rd.bold fmt.bold
      italic := pyMerge rd.italic fmt.italic
      alignment := pyMerge rd.alignment fmt.alignment
      line_spacing := pyMerge rd.line_spacing fmt.line_spacing
      line_spacing_rule := pyMerge rd.line_spacing_rule fmt.line_spacing_rule
      first_line_indent_cm := pyMerge rd.first_line_indent_cm fmt.first_line_indent_cm
      space_before_pt := pyMerge rd.space_before_pt fmt.space_before_pt
      space_after_pt := pyMerge rd.space_after_pt fmt.space_after_pt
      left_indent_cm := fmt.left_indent_cm }

/-- `build_default_formats` (format_docx.py lines 267-358) as a lookup from
role to the hardcoded default record; roles outside the twelve dictionary
keys (in particular `heading_<N>` for `N` outside 1..3) have no default. -/
def build_default_formats : Role → Option Fmt
  | Role.title => some
    { font_names := some ["Times New Roman".toList], font_sizes_pt := some [16]
      bold := some true, alignment := some ("center".toList), space_after_pt := some 12 }
  | Role.authors => some
    { font_names := some ["Times New Roman".toList], font_sizes_pt := some [12]
      alignment := some ("center".toList), space_after_pt := some 6 }
  | Role.affiliations => some
    { font_names := some ["Times New Roman".toList], font_sizes_pt := some [10]
      italic := some true, alignment := some ("center".toList), space_after_pt := some 12 }
  | Role.abstract_label => some
    { font_names := some ["Times New Roman".toList], font_sizes_pt := some [12]
      bold := some true, alignment := some ("left".toList) }
  | Role.abstract => some
    { font_names := some ["Times New Roman".toList], font_sizes_pt := some [10]
      alignment := some ("justify".toList), first_line_indent_cm := some 0
      space_after_pt := some 12 }
  | Role.keywords => some
    { font_names := some ["Times New Roman".toList], font_sizes_pt := some [10]
      alignment := some ("left".toList), space_after_pt := some 12 }
  | Role.heading n =>
    if n = 1 then some
      { font_names := some ["Times New Roman".toList], font_sizes_pt := some [14]
        bold := some true, alignment := some ("left".toList)
        space_before_pt := some 18, space_after_pt := some 12 }
    else if n = 2 then some
      { font_names := some ["Times New Roman".toList], font_sizes_pt := some [12]
        bold := some true, alignment := some ("left".toList)
        space_before_pt := some 12, space_after_pt := some 6 }
    else if n = 3 then some
      { font_names := some ["Times New Roman".toList], font_sizes_pt := some [12]
        bold := some false, italic := some true, alignment := some ("left".toList)
        space_before_pt := some 6, space_after_pt := some 6 }
    else none
  | Role.body => some
    { font_names := some ["Times New Roman".toList], font_sizes_pt := some [12]
      alignment := some ("justify".toList), line_spacing := some (LineSpacingVal.num (mkRat 3 2))
      first_line_indent_cm := some (mkRat 3 4), space_after_pt := some 0 }
  | Role.caption => some
    { font_names := some ["Times New Roman".toList], font_sizes_pt := some [10]
      alignment := some ("center".toList), bold := some false
      space_before_pt := some 6, space_after_pt := some 6 }
  | Role.reference => some
    { font_names := some ["Times New Roman".toList], font_sizes_pt := some [10]
      alignment := some ("justify".toList), first_line_indent_cm := some 0
      left_indent_cm := some 0, space_after_pt := some 3 }

/-- One emitted paragraph: its text and the formatting applied to it
(`add_formatted_paragraph`). -/
structure Para where
  text : List Char
  fmt : Fmt
  deriving DecidableEq, Repr

/-- Numbering of subsection `i` under a parent numbering: `f"{pfx}.{i}"`
when the parent numbering is non-empty, else empty. -/
def subPfx (pfx : List Char) (i : Nat) : List Char :=
  if pfx ≠ [] then pfx ++ '.' :: natDigits i else []

/-- The text of a section's heading paragraph: the numbering followed by a
space when both numbering and heading are non-empty. -/
def headingText (sec : Sec) (pfx : List Char) : List Char :=
  if pfx ≠ [] && sec.heading ≠ [] then pfx ++ ' ' :: sec.heading else sec.heading

mutual

/-- `add_section_content` (format_docx.py lines 361-384): emit the numbered
heading paragraph with the `heading_<level>` role format, the non-blank
content paragraphs with the `body` role format, then all subsections with
numbering extended by their 1-based index. -/
def add_section_content (r : StyleRules) (dfl : Role → Option Fmt) :
    Sec → List Char → List Para
  | Sec.mk h lvl content subs, pfx =>
    let level := lvl.getD 1
    let htext := if pfx ≠ [] && h ≠ [] then pfx ++ ' ' :: h else h
    let hfmt := get_role_format r (Role.heading level) (dfl (Role.heading level))
    let bodyFmt := get_role_format r Role.body (dfl Role.body)
    Para.mk htext hfmt
      :: (content.filter (fun t => pyStrip t ≠ [])).map (fun t => Para.mk t bodyFmt)
      ++ add_subsections r dfl subs pfx 1

/-- The `for i, subsec in enumerate(section["subsections"], 1)` loop. -/
def add_subsections (r : StyleRules) (dfl : Role → Option Fmt) :
    List Sec → List Char → Nat → List Para
  | [], _, _ => []
  | s :: rest, pfx, i =>
    add_section_content r dfl s (subPfx pfx i) ++ add_subsections r dfl rest pfx (i + 1)

end

/-- The `for i, section in enumerate(content["sections"], 1)` loop of
`format_document`: top-level section `i` is numbered `str(i)`. -/
def add_sections_from (r : StyleRules) (dfl : Role → Option Fmt) :
    List Sec → Nat → List Para
  | [], _ => []
  | s :: rest, i =>
    add_section_content r dfl s (natDigits i) ++ add_sections_from r dfl rest (i + 1)

/-- `format_document` (format_docx.py lines 387-444), as the ordered list
of paragraphs it adds to the document. -/
def format_document (c : Content) (r : StyleRules) : List Para :=
  let dfl := build_default_formats
  (if c.title ≠ [] then
    [Para.mk c.title (get_role_format r Role.title (dfl Role.title))] else [])
  ++ (if c.authors ≠ [] then
    [Para.mk (joinSep (", ".toList) c.authors)
      (get_role_format r Role.authors (dfl Role.authors))] else [])
  ++ c.affiliations.map
      (fun a => Para.mk a (get_role_format r Role.affiliations (dfl Role.affiliations)))
  ++ (if c.abstract ≠ [] then
    [Para.mk ("Abstract".toList) (get_role_format r Role.abstract_label (dfl Role.abstract_label)),
     Para.mk c.abstract (get_role_format r Role.abstract (dfl Role.abstract))] else [])
  ++ (if c.keywords ≠ [] then
    [Para.mk ("Keywords: ".toList ++ joinSep ("; ".toList) c.keywords)
      (get_role_format r Role.keywords (dfl Role.keywords))] else [])
  ++ add_sections_from r dfl c.sections 1
  ++ (if c.acknowledgments ≠ [] then
    [Para.mk ("Acknowledgments".toList) (get_role_format r (Role.heading 1) (dfl (Role.heading 1))),
     Para.mk c.acknowledgments (get_role_format r Role.body (dfl Role.body))] else [])
  ++ (if c.references ≠ [] then
    Para.mk ("References".toList) (get_role_format r (Role.heading 1) (dfl (Role.heading 1)))
      :: c.references.map
        (fun t => Para.mk t (get_role_format r Role.reference (dfl Role.reference)))
    else [])

/- ## Role classifier (`classify_paragraph`, analyze_docx.py lines 159-196) -/

/-- First maximal digit run in a string (`re.search(r"(\d+)", s)`). -/
def firstDigitRun (l : List Char) : Option (List Char) :=
  match l.dropWhile (fun c => !c.isDigit) with
  | [] => none
  | ds => some (ds.takeWhile Char.isDigit)

/-- `re.match(r"^(figure|fig\.|table|表|图)\s*\d", text, re.IGNORECASE)`:
one of the caption marker words at the start, optional whitespace, then a
digit. -/
def captionTextMatch (t : List Char) : Bool :=
  let tl := t.map Char.toLower
  ["figure".toList, "fig.".toList, "table".toList, "表".toList, "图".toList].any
    (fun w => match stripPre w tl with
      | some rest =>
        match rest.dropWhile pyIsSpace with
        | c :: _ => c.isDigit
        | [] => false
      | none => false)

/-- `re.match(r"^\[?\d+\]?\s", text)`: optional `[`, at least one digit,
optional `]`, then one whitespace character, all at the start. -/
def refTextMatch (t : List Char) : Bool :=
  let t1 := match t with
    | '[' :: r => r
    | _ => t
  let ds := t1.takeWhile Char.isDigit
  let rest := t1.dropWhile Char.isDigit
  let rest2 := match rest with
    | ']' :: r => r
    | _ => rest
  ds ≠ [] && (match rest2 with
    | c :: _ => pyIsSpace c
    | [] => false)

/-- `classify_paragraph`: the role of a paragraph from its style name and
text, as the role string the source returns. -/
def classify_paragraph (style_name text : List Char) : List Char :=
  let sn := style_name.map Char.toLower
  let t := pyStrip text
  if t = [] then "empty".toList
  else if containsSub ("heading".toList) sn || containsSub ("title".toList) sn then
    if containsSub ("title".toList) sn && !containsSub ("heading".toList) sn then
      "title".toList
    else
      let level := match firstDigitRun sn with
        | some ds => digitsToNat ds
        | none => 1
      "heading_".toList ++ natDigits level
  else if ("caption".toList).isPrefixOf sn || captionTextMatch t then "caption".toList
  else if sn = "bibliography".toList || sn = "references".toList then "reference".toList
  else if refTextMatch t && t.length > 30 then "reference".toList
  else if containsSub ("abstract".toList) sn
      || ("abstract".toList).isPrefixOf (t.map Char.toLower)
      || ("摘要".toList).isPrefixOf t then "abstract".toList
  else if ("keywords".toList).isPrefixOf (t.map Char.toLower)
      || ("关键词".toList).isPrefixOf t then "keywords".toList
  else "body".toList

/- ## Run statistics (`analyze_paragraph_format`, analyze_docx.py lines 131-156) -/

/-- One run's character formatting as exposed by the library. -/
structure Run where
  font_name : Option (List Char) := none
  font_size : Option ℚ := none
  bold : Option Bool := none
  italic : Option Bool := none
  deriving DecidableEq, Repr

/-- Python truthiness of an optional string (`None` and `""` are falsy). -/
def truthyS : Option (List Char) → Bool
  | none => false
  | some l => l != []

/-- The character-formatting summary `analyze_paragraph_format` computes
from a paragraph's run sequence (analyze_docx.py lines 131-156): distinct
fonts and sizes in first-seen order, and majority-vote bold/italic flags
(`bold_runs > total_runs * 0.5`). -/
def analyze_paragraph_runs (runs : List Run) : Fmt :=
  let fonts := runs.filterMap (fun r => if truthyS r.font_name then r.font_name else none)
  let sizes := runs.filterMap
    (fun r => if truthyQ r.font_size then some (emu_to_pt (r.font_size.getD 0)) else none)
  let bold_runs := (runs.filter (fun r => r.bold = some true)).length
  let italic_runs := (runs.filter (fun r => r.italic = some true)).length
  let total_runs := runs.length
  { font_names := if fonts ≠ [] then some (dedupFirst fonts) else none
    font_sizes_pt := if sizes ≠ [] then some (dedupFirstQ sizes) else none
    bold := if total_runs > 0
      then some (decide ((bold_runs : ℚ) > (total_runs : ℚ) * (1/2))) else none
    italic := if total_runs > 0
      then some (decide ((italic_runs : ℚ) > (total_runs : ℚ) * (1/2))) else none }

/- ## Citation-style detection (`detect_citation_style`, analyze_docx.py lines 257-284) -/

/-- The four fixed regex families, in the source dictionary's insertion
order. -/
inductive Family where
  | numeric_bracket
  | numeric_superscript
  | author_year_paren
  | author_year_cn
  deriving DecidableEq, Repr, Fintype

/-- Matcher for `\[\d+\]` at the head of the input; returns the rest. -/
def matchNB : List Char → Option (List Char)
  | '[' :: r =>
    let ds := r.takeWhile Char.isDigit
    let rest := r.dropWhile Char.isDigit
    if ds ≠ [] then
      match rest with
      | ']' :: r2 => some r2
      | _ => none
    else none
  | _ => none

/-- Matcher for `\^\[\d+\]` at the head of the input. -/
def matchNS : List Char → Option (List Char)
  | '^' :: r => matchNB r
  | _ => none

/-- `[A-Z][a-z]+`: a capitalised Latin name. -/
def matchName : List Char → Option (List Char)
  | c :: r =>
    if 'A' ≤ c && c ≤ 'Z' then
      let ls := r.takeWhile (fun x => 'a' ≤ x && x ≤ 'z')
      if ls ≠ [] then some (r.dropWhile (fun x => 'a' ≤ x && x ≤ 'z')) else none
    else none
  | [] => none

/-- `,?\s*\d{4}\)`: the year-and-close tail of the author-year pattern. -/
def matchAYtail (l : List Char) : Option (List Char) :=
  let l1 := match l with
    | ',' :: r => r
    | _ => l
  let l2 := l1.dropWhile pyIsSpace
  match l2 with
  | d1 :: d2 :: d3 :: d4 :: ')' :: r =>
    if d1.isDigit && d2.isDigit && d3.isDigit && d4.isDigit then some r else none
  | _ => none

/-- `\s(?:and|&)\s[A-Z][a-z]+` followed by the year tail: the optional
second-author branch of the author-year pattern, with the fallback to the
year tail alone when it does not apply (regex optional-group
backtracking). -/
def matchAYsecond (l : List Char) : Option (List Char) :=
  let withSecond : Option (List Char) :=
    match l with
    | c :: r =>
      if pyIsSpace c then
        let afterConn : Option (List Char) :=
          match stripPre ("and".toList) r with
          | some r2 => some r2
          | none => match r with
            | '&' :: r2 => some r2
            | _ => none
        match afterConn with
        | some r2 =>
          match r2 with
          | c2 :: r3 =>
            if pyIsSpace c2 then
              match matchName r3 with
              | some r4 => matchAYtail r4
              | none => none
            else none
          | [] => none
        | none => none
      else none
    | [] => none
  match withSecond with
  | some res => some res
  | none => matchAYtail l

/-- Matcher for the Latin author-year pattern
`\([A-Z][a-z]+(?:\s(?:and|&)\s[A-Z][a-z]+)?,?\s*\d{4}\)`. -/
def matchAYP : List Char → Option (List Char)
  | '(' :: r =>
    match matchName r with
    | some r1 => matchAYsecond r1
    | none => none
  | _ => none

/-- Full-width or half-width open parenthesis. -/
def isOpenParen (c : Char) : Bool := c == '(' || c == '（'

/-- Full-width or half-width close parenthesis. -/
def isCloseParen (c : Char) : Bool := c == ')' || c == '）'

/-- Full-width or half-width comma. -/
def isCnComma (c : Char) : Bool := c == ',' || c == '，'

/-- Matcher for the Chinese author-year pattern
`[（(]\s*[一-鿿]+\s*[,，]\s*\d{4}\s*[)）]`. -/
def matchAYC : List Char → Option (List Char)
  | c :: r =>
    if isOpenParen c then
      let r1 := r.dropWhile pyIsSpace
      let cjk := r1.takeWhile isCJK
      let r2 := r1.dropWhile isCJK
      if cjk ≠ [] then
        let r3 := r2.dropWhile pyIsSpace
        match r3 with
        | c2 :: r4 =>
          if isCnComma c2 then
            let r5 := r4.dropWhile pyIsSpace
            match r5 with
            | d1 :: d2 :: d3 :: d4 :: r6 =>
              if d1.isDigit && d2.isDigit && d3.isDigit && d4.isDigit then
                match r6.dropWhile pyIsSpace with
                | c3 :: r7 => if isCloseParen c3 then some r7 else none
                | [] => none
              else none
            | _ => none
          else none
        | [] => none
      else none
    else none
  | [] => none

/-- Fuel-driven scan for `re.findall`; the fuel argument only bounds the
recursion depth and is always sufficient at the call site (every step
shortens the text).  The length guard in the matched branch only protects
against a non-shrinking rest, which none of the four matchers produces. -/
def countMatchesAux (matcher : List Char → Option (List Char)) : Nat → List Char → Nat
  | 0, _ => 0
  | _ + 1, [] => 0
  | fuel + 1, x :: t =>
    match matcher (x :: t) with
    | some rest =>
      if rest.length < (x :: t).length then 1 + countMatchesAux matcher fuel rest
      else 1 + countMatchesAux matcher fuel t
    | none => countMatchesAux matcher fuel t

/-- `len(re.findall(pattern, text))`: non-overlapping left-to-right match
count. -/
def countMatches (matcher : List Char → Option (List Char)) (l : List Char) : Nat :=
  countMatchesAux matcher l.length l

/-- The per-family tallies. -/
structure CitCounts where
  numeric_bracket : Nat
  numeric_superscript : Nat
  author_year_paren : Nat
  author_year_cn : Nat
  deriving DecidableEq, Repr

/-- Count accessor by family. -/
def famCount (c : CitCounts) : Family → Nat
  | Family.numeric_bracket => c.numeric_bracket
  | Family.numeric_superscript => c.numeric_superscript
  | Family.author_year_paren => c.author_year_paren
  | Family.author_year_cn => c.author_year_cn

/-- Tally the four patterns over all paragraph texts. -/
def tallyCitations (paras : List (List Char)) : CitCounts :=
  { numeric_bracket := (paras.map (countMatches matchNB)).sum
    numeric_superscript := (paras.map (countMatches matchNS)).sum
    author_year_paren := (paras.map (countMatches matchAYP)).sum
    author_year_cn := (paras.map (countMatches matchAYC)).sum }

/-- Python `max(counts, key=counts.get)`: the first key of the insertion
order whose count is maximal (a later key replaces only on a strictly
greater count). -/
def argmaxFamily (c : CitCounts) : Family :=
  let b1 := Family.numeric_bracket
  let b2 := if c.numeric_superscript > famCount c b1 then Family.numeric_superscript else b1
  let b3 := if c.author_year_paren > famCount c b2 then Family.author_year_paren else b2
  if c.author_year_cn > famCount c b3 then Family.author_year_cn else b3

/-- The verbose label of each family in the source's `style_map`. -/
def styleLabel : Family → List Char
  | Family.numeric_bracket => "numeric (e.g., GB/T 7714 numeric, IEEE, Vancouver)".toList
  | Family.numeric_superscript => "numeric superscript (e.g., Vancouver)".toList
  | Family.author_year_paren => "author-year (e.g., APA, Chicago author-date)".toList
  | Family.author_year_cn => "author-year Chinese (e.g., GB/T 7714 author-year)".toList

/-- The result record of `detect_citation_style`. -/
structure CitResult where
  detected_style : List Char
  citation_counts : CitCounts
  deriving DecidableEq, Repr

/-- `detect_citation_style`: tally the four families over all paragraphs;
the first family of maximal count wins when any count is positive, else
the detected style is `unknown`; the raw counts are returned alongside. -/
def detect_citation_style (paras : List (List Char)) : CitResult :=
  let c := tallyCitations paras
  let detected : Option Family :=
    if c.numeric_bracket > 0 || c.numeric_superscript > 0
        || c.author_year_paren > 0 || c.author_year_cn > 0
    then some (argmaxFamily c) else none
  { detected_style := match detected with
      | some f => styleLabel f
      | none => "unknown".toList
    citation_counts := c }

/- ## Spec-side comparison definitions and concrete example inputs -/

/-- Modelled from the spec: the claimed base-size snap applied directly to
the raw size value (size ≤ 10 gives 10, size ≤ 11 gives 11, else 12). -/
def snapSpec (q : ℚ) : ℚ :=
  if q ≤ 10 then 10 else if q ≤ 11 then 11 else 12

/-- The first `body` font size the document-class builder reads (the
source's `sizes[0]`, with `12` for an absent or empty list). -/
def firstBodySize (rules : StyleRules) : ℚ :=
  let sizes : List ℚ :=
    match rules.paragraph_formatting Role.body with
    | none => [12]
    | some f => f.font_sizes_pt.getD [12]
  match sizes with
  | [] => 12
  | s :: _ => s

/-- CJK occurring in title, abstract, any keyword, or a top-level
section's heading or content (the depth-1 reading of the spec sentence). -/
def specTopCJK (c : Content) : Bool :=
  detect_chinese c.title || detect_chinese c.abstract
    || c.keywords.any detect_chinese
    || c.sections.any (fun s => detect_chinese s.heading || s.content.any detect_chinese)

mutual

/-- Modelled from the claim's words: CJK anywhere in a section, including
nested subsections at any depth. -/
def cjkSecDeep : Sec → Bool
  | Sec.mk h _ content subs =>
    detect_chinese h || content.any detect_chinese || cjkSecsDeep subs

/-- CJK anywhere in a list of sections, at any depth. -/
def cjkSecsDeep : List Sec → Bool
  | [] => false
  | s :: rest => cjkSecDeep s || cjkSecsDeep rest

end

/-- Modelled from the claim's words: CJK in title, abstract, a keyword, or
any section heading or content at any nesting depth. -/
def cjkDeepContent (c : Content) : Bool :=
  detect_chinese c.title || detect_chinese c.abstract
    || c.keywords.any detect_chinese || cjkSecsDeep c.sections

/-- A formatting record holding exactly the present fields of an extracted
entry and nothing else (the resolution result when no default exists). -/
def onlyExtracted (rd : Fmt) : Fmt :=
  { font_names := rd.font_names
    font_sizes_pt := rd.font_sizes_pt
    bold := rd.bold
    italic := rd.italic
    alignment := rd.alignment
    line_spacing := rd.line_spacing
    line_spacing_rule := rd.line_spacing_rule
    first_line_indent_cm := rd.first_line_indent_cm
    space_before_pt := rd.space_before_pt
    space_after_pt := rd.space_after_pt
    left_indent_cm := none }

/-- Membership in the closed role-string enumeration
`title | heading_<N> | abstract | keywords | caption | reference | body | empty`. -/
def isRoleString (s : List Char) : Prop :=
  s = "title".toList ∨ s = "abstract".toList ∨ s = "keywords".toList
    ∨ s = "caption".toList ∨ s = "reference".toList ∨ s = "body".toList
    ∨ s = "empty".toList ∨ ∃ n : Nat, s = "heading_".toList ++ natDigits n

/-- Style rules with a single `body` entry carrying the font size 10.5pt. -/
def exRulesC2 : StyleRules :=
  { paragraph_formatting := fun r =>
      if r = Role.body then some { font_sizes_pt := some [mkRat 21 2] } else none
    page_layout := [] }

/-- Style rules with no extracted paragraph formatting at all. -/
def exRulesEmpty : StyleRules :=
  { paragraph_formatting := fun _ => none
    page_layout := [] }

/-- Content whose only CJK characters sit in a depth-2 subsection heading. -/
def exContentC3 : Content :=
  { sections :=
      [Sec.mk ("Intro".toList) (some 1) ["Latin text only.".toList]
        [Sec.mk ("背景".toList) (some 2) [] []]] }

/-- An extracted `body` entry that sets only the bold field. -/
def exRdC4 : Fmt := { bold := some true }

/-- Style rules whose only entry is `exRdC4` under the `body` role. -/
def exRulesC4 : StyleRules :=
  { paragraph_formatting := fun r => if r = Role.body then some exRdC4 else none
    page_layout := [] }

/-- Three runs, two of them bold, one italic. -/
def exRuns2of3 : List Run :=
  [{ bold := some true }, { bold := some true, italic := some true }, {}]

/-- Three runs, one of them bold. -/
def exRuns1of3 : List Run :=
  [{ bold := some true }, {}, { italic := some true }]

/-- Three paragraphs carrying the numeric citations [1] [2] [3] and no
author-year patterns. -/
def exParasC7 : List (List Char) :=
  ["Results are reported in [1].".toList,
   "Prior studies [2] agree.".toList,
   "See the survey [3] for details.".toList]

/-- A content tree whose second top-level section is three levels deep. -/
def exContentC8 : Content :=
  { sections :=
      [Sec.mk ("Introduction".toList) (some 1) [] [],
       Sec.mk ("Methods".toList) (some 1) ["We describe the setup.".toList]
         [Sec.mk ("Data".toList) (some 2) []
           [Sec.mk ("Cleaning".toList) (some 3) [] []]]] }

/-- Style rules whose first page-layout section has all margins given as 0. -/
def exRulesC9 : StyleRules :=
  { paragraph_formatting := fun _ => none
    page_layout := [{ margins := { top_cm := some 0, bottom_cm := some 0
                                   left_cm := some 0, right_cm := some 0 } }] }

/-- A section carrying the explicit level field 4. -/
def exSecC10 : Sec := Sec.mk ("Deep heading".toList) (some 4) [] []

/- ## Theorems -/

theorem replaceChar_append (c : Char) (r a b : List Char) :
    replaceChar c r (a ++ b) = replaceChar c r a ++ replaceChar c r b := by
  induction a with
  | nil => rfl
  | cons x t ih => simp [replaceChar, ih]

theorem escape_latex_append (a b : List Char) :
    escape_latex (a ++ b) = escape_latex a ++ escape_latex b := by
  simp [escape_latex, replaceChar_append]

theorem escape_latex_single (x : Char) : escape_latex [x] = escRepl x := by
  by_cases h1 : x = '&'
  · subst h1; decide
  by_cases h2 : x = '%'
  · subst h2; decide
  by_cases h3 : x = '$'
  · subst h3; decide
  by_cases h4 : x = '#'
  · subst h4; decide
  by_cases h5 : x = '_'
  · subst h5; decide
  by_cases h6 : x = '{'
  · subst h6; decide
  by_cases h7 : x = '}'
  · subst h7; decide
  by_cases h8 : x = '~'
  · subst h8; decide
  by_cases h9 : x = '^'
  · subst h9; decide
  simp [escape_latex, replaceChar, escRepl, h1, h2, h3, h4, h5, h6, h7, h8, h9]

theorem escape_latex_cons (x : Char) (l : List Char) :
    escape_latex (x :: l) = escRepl x ++ escape_latex l := by
  have h : x :: l = [x] ++ l := rfl
  rw [h, escape_latex_append, escape_latex_single]

theorem escOKAfter_head_false {b : Char} (p : Char) (rest : List Char)
    (hb : isSpecial4 b = false) :
    escOKAfter p (b :: rest) = escOKAfter b rest := by
  simp [escOKAfter, hb]

theorem getLastD_cons_eq (x p : Char) (t : List Char) :
    (x :: t).getLastD p = t.getLastD x := by
  cases t <;> simp [List.getLastD]

theorem getLast?_getD_cons (x p : Char) (t : List Char) :
    (x :: t).getLast?.getD p = t.getLast?.getD x := by
  cases t with
  | nil => simp
  | cons y ys =>
    rw [List.getLast?_cons_cons]
    cases h : (y :: ys).getLast? with
    | none => simp at h
    | some a => simp [h]

theorem escOKAfter_append (b : List Char) :
    ∀ (a : List Char) (p : Char),
      escOKAfter p (a ++ b) = (escOKAfter p a && escOKAfter (a.getLastD p) b) := by
  intro a
  induction a with
  | nil => intro p; simp [escOKAfter]
  | cons x t ih =>
    intro p
    simp [escOKAfter, ih, getLast?_getD_cons, Bool.and_assoc]

theorem escOKAfter_escRepl (x p : Char) : escOKAfter p (escRepl x) = true := by
  by_cases h1 : x = '&'
  · subst h1
    rw [show escRepl '&' = ['\\', '&'] from rfl,
      escOKAfter_head_false p _ (by decide)]
    decide
  by_cases h2 : x = '%'
  · subst h2
    rw [show escRepl '%' = ['\\', '%'] from rfl,
      escOKAfter_head_false p _ (by decide)]
    decide
  by_cases h3 : x = '$'
  · subst h3
    rw [show escRepl '$' = ['\\', '$'] from rfl,
      escOKAfter_head_false p _ (by decide)]
    decide
  by_cases h4 : x = '#'
  · subst h4
    rw [show escRepl '#' = ['\\', '#'] from rfl,
      escOKAfter_head_false p _ (by decide)]
    decide
  by_cases h5 : x = '_'
  · subst h5
    rw [show escRepl '_' = ['\\', '_'] from rfl,
      escOKAfter_head_false p _ (by decide)]
    decide
  by_cases h6 : x = '{'
  · subst h6
    rw [show escRepl '{' = ['\\', '{'] from rfl,
      escOKAfter_head_false p _ (by decide)]
    decide
  by_cases h7 : x = '}'
  · subst h7
    rw [show escRepl '}' = ['\\', '}'] from rfl,
      escOKAfter_head_false p _ (by decide)]
    decide
  by_cases h8 : x = '~'
  · subst h8
    rw [show escRepl '~' = tildeRepl from rfl, tildeRepl,
      escOKAfter_head_false p _ (by decide)]
    decide
  by_cases h9 : x = '^'
  · subst h9
    rw [show escRepl '^' = circRepl from rfl, circRepl,
      escOKAfter_head_false p _ (by decide)]
    decide
  have hx : isSpecial4 x = false := by
    simp only [isSpecial4, Bool.or_eq_false_iff, beq_eq_false_iff_ne, ne_eq]
    exact ⟨⟨⟨h2, h1⟩, h3⟩, h5⟩
  rw [show escRepl x = [x] from by
      simp [escRepl, h1, h2, h3, h4, h5, h6, h7, h8, h9],
    escOKAfter_head_false p _ hx]
  rfl

theorem escape_latex_escOK (l : List Char) :
    ∀ p : Char, escOKAfter p (escape_latex l) = true := by
  induction l with
  | nil => intro p; rfl
  | cons x t ih =>
    intro p
    rw [escape_latex_cons, escOKAfter_append, escOKAfter_escRepl, ih]
    rfl

/-- C1, counterexample: a second escape pass is not the identity on the
escape of `"50% & $5_ok"` — re-escaping turns each `\%`-style pair into a
double-backslash form, so the claimed idempotence fails. -/
theorem C1_counterexample :
    escape_latex (escape_latex ("50% & $5_ok".toList))
      ≠ escape_latex ("50% & $5_ok".toList) := by
  decide

/-- C1, amended: for every input string, every `%`, `&`, `$`, `_` in the
output of `escape_latex` is immediately preceded by a backslash (so none
is left unescaped, and `"50% & $5_ok"` escapes to `"50\% \& \$5\_ok"`),
but the escape is not idempotent: a second pass over its own output
changes it by introducing double backslashes. -/
theorem C1_amended :
    (∀ (l : List Char) (p : Char), escOKAfter p (escape_latex l) = true)
    ∧ escape_latex ("50% & $5_ok".toList) = "50\\% \\& \\$5\\_ok".toList
    ∧ escape_latex (escape_latex ("50% & $5_ok".toList))
        ≠ escape_latex ("50% & $5_ok".toList) :=
  ⟨fun l p => escape_latex_escOK l p, by decide, by decide⟩

/-- C2, counterexample: with a `body` font size of 10.5pt the backend's
base size is 10pt, while the claimed snap of the size itself yields 11pt —
so a body size of 10.5pt does not yield 11pt as claimed. -/
theorem C2_counterexample :
    ((build_document_class exRulesC2 false).base_size : ℚ)
        ≠ snapSpec (firstBodySize exRulesC2)
    ∧ (build_document_class exRulesC2 false).base_size = 10
    ∧ snapSpec (firstBodySize exRulesC2) = 11 := by
  refine ⟨by decide, by decide, by decide⟩

/-- C2, amended: the base font size equals the snap rule applied to the
`int()` truncation of the first `body` font size (12 when no body size is
present); in particular a body size of 10.5pt is truncated to 10 and
yields 10pt, and absent body sizes yield 12pt. -/
theorem C2_amended :
    (∀ (rules : StyleRules) (b : Bool),
      ((build_document_class rules b).base_size : ℚ)
        = snapSpec ((pyInt (firstBodySize rules) : ℤ) : ℚ))
    ∧ (build_document_class exRulesC2 false).base_size = 10
    ∧ (build_document_class exRulesEmpty false).base_size = 12 := by
  refine ⟨fun rules b => ?_, by decide, by decide⟩
  simp only [build_document_class, firstBodySize]
  cases hpf : rules.paragraph_formatting Role.body with
  | none =>
    norm_num [pyInt, snapSpec]
  | some f =>
    cases hls : f.font_sizes_pt.getD [12] with
    | nil =>
      simp only [hls]
      norm_num [pyInt, snapSpec]
    | cons s rest =>
      simp only [hls, snapSpec]
      have hc10 : ((pyInt s : ℤ) : ℚ) ≤ 10 ↔ pyInt s ≤ 10 := by exact_mod_cast Iff.rfl
      have hc11 : ((pyInt s : ℤ) : ℚ) ≤ 11 ↔ pyInt s ≤ 11 := by exact_mod_cast Iff.rfl
      simp only [hc10, hc11]
      split_ifs <;> norm_num

theorem detect_chinese_append (a b : List Char) :
    detect_chinese (a ++ b) = (detect_chinese a || detect_chinese b) := by
  simp [detect_chinese]

theorem detect_chinese_join_space (ks : List (List Char)) :
    detect_chinese (joinSep [' '] ks) = ks.any detect_chinese := by
  induction ks with
  | nil => rfl
  | cons x xs ih =>
    cases xs with
    | nil => simp [joinSep]
    | cons y ys =>
      rw [joinSep, detect_chinese_append, detect_chinese_append, ih]
      have hsp : detect_chinese [' '] = false := by decide
      simp [hsp]

theorem any_detect_flatMap (l : List Sec) :
    (l.flatMap (fun s => s.heading :: s.content)).any detect_chinese
      = l.any (fun s => detect_chinese s.heading || s.content.any detect_chinese) := by
  induction l with
  | nil => rfl
  | cons s rest ih =>
    simp only [List.flatMap_cons, List.any_append, List.any_cons, ih]

/-- C3, counterexample: a content tree whose only CJK characters sit in a
depth-2 subsection heading is not detected as Chinese, and the plain
`article` class is selected even though a CJK character occurs in a nested
section — so the claimed iff over subsections at any depth fails. -/
theorem C3_counterexample :
    has_chinese_content exContentC3 = false
    ∧ cjkDeepContent exContentC3 = true
    ∧ (build_document_class exRulesEmpty (has_chinese_content exContentC3)).name
        = "article".toList := by
  refine ⟨by decide, by decide, by decide⟩

/-- C3, amended: the CJK-aware class `ctexart` is selected if and only if
a CJK character occurs in the title, the abstract, a keyword, or a
top-level section's heading or content; subsections below the top level
are not examined. -/
theorem C3_amended :
    ∀ (c : Content) (rules : StyleRules),
      has_chinese_content c = specTopCJK c
      ∧ ((build_document_class rules (has_chinese_content c)).name = "ctexart".toList
          ↔ specTopCJK c = true) := by
  intro c rules
  have h : has_chinese_content c = specTopCJK c := by
    simp only [has_chinese_content, specTopCJK, List.any_cons, List.any_nil,
      detect_chinese_join_space, any_detect_flatMap]
    simp [detect_chinese_join_space, Bool.or_assoc]
  refine ⟨h, ?_⟩
  rw [← h]
  cases hc : has_chinese_content c with
  | true => simp [build_document_class]
  | false =>
    simp only [build_document_class]
    constructor
    · intro habs
      exact absurd habs (by decide)
    · intro habs
      exact absurd habs (by decide)

/-- C3 witness: the amended characterisation instantiated at the concrete
content tree and empty style rules. -/
theorem C3_amended_witness :
    has_chinese_content exContentC3 = specTopCJK exContentC3
    ∧ ((build_document_class exRulesEmpty (has_chinese_content exContentC3)).name
          = "ctexart".toList
        ↔ specTopCJK exContentC3 = true) :=
  C3_amended exContentC3 exRulesEmpty

/-- C4: role-format resolution is deterministic; with no extracted entry
for the role the result is exactly the default record; and with an
extracted entry, every field of the fixed list whose extracted value is
absent keeps the default's value (the untouched `left_indent_cm` always
does). -/
theorem C4_resolution :
    ∀ (rules : StyleRules) (role : Role) (d : Option Fmt),
      get_role_format rules role d = get_role_format rules role d
      ∧ (rules.paragraph_formatting role = none →
          get_role_format rules role d = d.getD emptyFmt)
      ∧ (∀ rd, rules.paragraph_formatting role = some rd →
          (rd.font_names = none →
            (get_role_format rules role d).font_names = (d.getD emptyFmt).font_names)
          ∧ (rd.font_sizes_pt = none →
            (get_role_format rules role d).font_sizes_pt = (d.getD emptyFmt).font_sizes_pt)
          ∧ (rd.bold = none →
            (get_role_format rules role d).bold = (d.getD emptyFmt).bold)
          ∧ (rd.italic = none →
            (get_role_format rules role d).italic = (d.getD emptyFmt).italic)
          ∧ (rd.alignment = none →
            (get_role_format rules role d).alignment = (d.getD emptyFmt).alignment)
          ∧ (rd.line_spacing = none →
            (get_role_format rules role d).line_spacing = (d.getD emptyFmt).line_spacing)
          ∧ (rd.line_spacing_rule = none →
            (get_role_format rules role d).line_spacing_rule
              = (d.getD emptyFmt).line_spacing_rule)
          ∧ (rd.first_line_indent_cm = none →
            (get_role_format rules role d).first_line_indent_cm
              = (d.getD emptyFmt).first_line_indent_cm)
          ∧ (rd.space_before_pt = none →
            (get_role_format rules role d).space_before_pt
              = (d.getD emptyFmt).space_before_pt)
          ∧ (rd.space_after_pt = none →
            (get_role_format rules role d).space_after_pt = (d.getD emptyFmt).space_after_pt)
          ∧ (get_role_format rules role d).left_indent_cm
              = (d.getD emptyFmt).left_indent_cm) := by
  intro rules role d
  refine ⟨rfl, ?_, ?_⟩
  · intro h
    simp [get_role_format, h]
  · intro rd h
    refine ⟨?_, ?_, ?_, ?_, ?_, ?_, ?_, ?_, ?_, ?_, ?_⟩ <;>
      first
        | (intro hf; simp [get_role_format, h, pyMerge, hf])
        | simp [get_role_format, h, pyMerge]

/-- C4 witness: at concrete inputs, the extracted `body` entry sets only
`bold`, and the resolved italic field equals the hardcoded body default's
italic field. -/
theorem C4_resolution_witness :
    exRdC4.italic = none
    ∧ (get_role_format exRulesC4 Role.body (build_default_formats Role.body)).italic
        = ((build_default_formats Role.body).getD emptyFmt).italic := by
  refine ⟨rfl, ?_⟩
  exact (((C4_resolution exRulesC4 Role.body (build_default_formats Role.body)).2.2
    exRdC4 (by decide)).2.2.2.1) rfl

theorem classify_empty_iff (sn t : List Char) :
    classify_paragraph sn t = "empty".toList ↔ pyStrip t = [] := by
  constructor
  · intro h
    by_contra hne
    simp only [classify_paragraph] at h
    rw [if_neg hne] at h
    split_ifs at h <;> simp_all
  · intro h
    simp [classify_paragraph, h]

theorem classify_isRoleString (sn t : List Char) :
    isRoleString (classify_paragraph sn t) := by
  simp only [classify_paragraph]
  split_ifs <;> simp only [isRoleString] <;> tauto

theorem classify_heading_default (sn t : List Char)
    (h0 : pyStrip t ≠ [])
    (hdig : firstDigitRun (sn.map Char.toLower) = none)
    (hht : containsSub ("heading".toList) (sn.map Char.toLower) = true
      ∨ containsSub ("title".toList) (sn.map Char.toLower) = true)
    (hnt : containsSub ("heading".toList) (sn.map Char.toLower) = true
      ∨ containsSub ("title".toList) (sn.map Char.toLower) = false) :
    classify_paragraph sn t = "heading_1".toList := by
  have hcond : (containsSub ("heading".toList) (sn.map Char.toLower)
      || containsSub ("title".toList) (sn.map Char.toLower)) = true := by
    rcases hht with h | h
    · rw [h, Bool.true_or]
    · rw [h, Bool.or_true]
  have hcond2 : (containsSub ("title".toList) (sn.map Char.toLower)
      && !containsSub ("heading".toList) (sn.map Char.toLower)) = false := by
    rcases hnt with h | h
    · rw [h, Bool.not_true, Bool.and_false]
    · rw [h, Bool.false_and]
  simp only [classify_paragraph]
  rw [if_neg h0]
  simp only [hcond, if_true, hcond2, hdig]
  decide

/-- C5: role classification is total into the closed role enumeration;
it yields `empty` exactly when the trimmed text is empty; and a non-empty
paragraph whose style name contains "heading" or "title" without any
digit sequence (and contains "heading", or lacks "title") is classified
`heading_1`. -/
theorem C5_classifier :
    ∀ (sn t : List Char),
      (classify_paragraph sn t = "empty".toList ↔ pyStrip t = [])
      ∧ isRoleString (classify_paragraph sn t)
      ∧ (pyStrip t ≠ [] →
          firstDigitRun (sn.map Char.toLower) = none →
          (containsSub ("heading".toList) (sn.map Char.toLower) = true
            ∨ containsSub ("title".toList) (sn.map Char.toLower) = true) →
          (containsSub ("heading".toList) (sn.map Char.toLower) = true
            ∨ containsSub ("title".toList) (sn.map Char.toLower) = false) →
          classify_paragraph sn t = "heading_1".toList) :=
  fun sn t =>
    ⟨classify_empty_iff sn t, classify_isRoleString sn t,
      fun h0 hdig hht hnt => classify_heading_default sn t h0 hdig hht hnt⟩

/-- C5 witness: the style name "Heading" with text "Introduction" hits
the digitless heading edge case and is classified `heading_1`. -/
theorem C5_classifier_witness :
    classify_paragraph ("Heading".toList) ("Introduction".toList) = "heading_1".toList :=
  (C5_classifier ("Heading".toList) ("Introduction".toList)).2.2
    (by decide) (by decide) (Or.inl (by decide)) (Or.inl (by decide))

theorem half_lt_iff (t b : ℕ) : ((t : ℚ) * (1/2) < (b : ℚ)) ↔ t < 2 * b := by
  constructor
  · intro hh
    have h2 : (t : ℚ) < 2 * (b : ℚ) := by linarith
    exact_mod_cast h2
  · intro hh
    have h2 : (t : ℚ) < 2 * (b : ℚ) := by exact_mod_cast hh
    linarith

theorem majority_decide_true {bl len : ℕ} (h : len < 2 * bl) :
    decide ((bl : ℚ) > (len : ℚ) * (1/2)) = true := by
  simp only [decide_eq_true_eq, gt_iff_lt]
  exact (half_lt_iff len bl).mpr h

theorem majority_decide_false {bl len : ℕ} (h : ¬len < 2 * bl) :
    decide ((bl : ℚ) > (len : ℚ) * (1/2)) = false := by
  simp only [decide_eq_false_iff_not, gt_iff_lt]
  intro hc
  exact h ((half_lt_iff len bl).mp hc)

theorem analyze_runs_flags (runs : List Run) (hpos : 0 < runs.length) :
    (analyze_paragraph_runs runs).bold
      = some (decide ((((runs.filter (fun r => r.bold = some true)).length : ℚ))
          > (runs.length : ℚ) * (1/2)))
    ∧ (analyze_paragraph_runs runs).italic
      = some (decide ((((runs.filter (fun r => r.italic = some true)).length : ℚ))
          > (runs.length : ℚ) * (1/2))) := by
  constructor <;> simp [analyze_paragraph_runs, hpos]

/-- C6: for every paragraph with at least one run, the extracted bold
(resp. italic) flag is true exactly when strictly more than half of the
runs are bold (resp. italic); 2 bold runs of 3 give `true`, 1 of 3 gives
`false`. -/
theorem C6_majority :
    (∀ runs : List Run, 1 ≤ runs.length →
      ((analyze_paragraph_runs runs).bold = some true
        ↔ runs.length < 2 * (runs.filter (fun r => r.bold = some true)).length)
      ∧ ((analyze_paragraph_runs runs).italic = some true
        ↔ runs.length < 2 * (runs.filter (fun r => r.italic = some true)).length))
    ∧ (analyze_paragraph_runs exRuns2of3).bold = some true
    ∧ (analyze_paragraph_runs exRuns1of3).bold = some false := by
  refine ⟨fun runs h => ?_, ?_, ?_⟩
  · obtain ⟨hb1, hb2⟩ := analyze_runs_flags runs h
    constructor
    · rw [hb1]
      simp only [Option.some.injEq, decide_eq_true_eq, gt_iff_lt, half_lt_iff]
    · rw [hb2]
      simp only [Option.some.injEq, decide_eq_true_eq, gt_iff_lt, half_lt_iff]
  · rw [(analyze_runs_flags exRuns2of3 (by decide)).1, majority_decide_true (by decide)]
  · rw [(analyze_runs_flags exRuns1of3 (by decide)).1, majority_decide_false (by decide)]

/-- C6 witness: the majority rule instantiated at the three-run paragraph
with two bold runs. -/
theorem C6_majority_witness :
    1 ≤ exRuns2of3.length
    ∧ ((analyze_paragraph_runs exRuns2of3).bold = some true
        ↔ exRuns2of3.length < 2 * (exRuns2of3.filter (fun r => r.bold = some true)).length) :=
  ⟨by decide, (C6_majority.1 exRuns2of3 (by decide)).1⟩

theorem famCount_pos_of_strict (c : CitCounts) (f : Family)
    (hf : ∀ g, g ≠ f → famCount c g < famCount c f) : 0 < famCount c f := by
  cases f
  · exact Nat.lt_of_le_of_lt (Nat.zero_le _) (hf Family.numeric_superscript (by decide))
  · exact Nat.lt_of_le_of_lt (Nat.zero_le _) (hf Family.numeric_bracket (by decide))
  · exact Nat.lt_of_le_of_lt (Nat.zero_le _) (hf Family.numeric_bracket (by decide))
  · exact Nat.lt_of_le_of_lt (Nat.zero_le _) (hf Family.numeric_bracket (by decide))

theorem argmax_of_strict (c : CitCounts) (f : Family)
    (hf : ∀ g, g ≠ f → famCount c g < famCount c f) : argmaxFamily c = f := by
  cases f with
  | numeric_bracket =>
    have h2 := hf Family.numeric_superscript (by decide)
    have h3 := hf Family.author_year_paren (by decide)
    have h4 := hf Family.author_year_cn (by decide)
    simp only [famCount] at h2 h3 h4
    simp only [argmaxFamily, famCount]
    split_ifs <;> simp_all [famCount] <;> omega
  | numeric_superscript =>
    have h2 := hf Family.numeric_bracket (by decide)
    have h3 := hf Family.author_year_paren (by decide)
    have h4 := hf Family.author_year_cn (by decide)
    simp only [famCount] at h2 h3 h4
    simp only [argmaxFamily, famCount]
    split_ifs <;> simp_all [famCount] <;> omega
  | author_year_paren =>
    have h2 := hf Family.numeric_bracket (by decide)
    have h3 := hf Family.numeric_superscript (by decide)
    have h4 := hf Family.author_year_cn (by decide)
    simp only [famCount] at h2 h3 h4
    simp only [argmaxFamily, famCount]
    split_ifs <;> simp_all [famCount] <;> omega
  | author_year_cn =>
    have h2 := hf Family.numeric_bracket (by decide)
    have h3 := hf Family.numeric_superscript (by decide)
    have h4 := hf Family.author_year_paren (by decide)
    simp only [famCount] at h2 h3 h4
    simp only [argmaxFamily, famCount]
    split_ifs <;> simp_all [famCount]

/-- C7: citation detection returns the label of the family with the
strictly highest tally together with the raw per-family counts, returns
`unknown` on an all-zero tally, and on the paragraphs containing [1],
[2], [3] yields the numeric-bracket label with count 3 and all other
counts 0. -/
theorem C7_citation :
    (∀ (paras : List (List Char)) (f : Family),
      (∀ g, g ≠ f → famCount (tallyCitations paras) g < famCount (tallyCitations paras) f) →
      detect_citation_style paras
        = { detected_style := styleLabel f, citation_counts := tallyCitations paras })
    ∧ (∀ paras, tallyCitations paras = ⟨0, 0, 0, 0⟩ →
      detect_citation_style paras
        = { detected_style := "unknown".toList, citation_counts := ⟨0, 0, 0, 0⟩ })
    ∧ detect_citation_style exParasC7
        = { detected_style := styleLabel Family.numeric_bracket
            citation_counts := ⟨3, 0, 0, 0⟩ } := by
  refine ⟨?_, ?_, by decide⟩
  · intro paras f hf
    have hpos : 0 < famCount (tallyCitations paras) f := famCount_pos_of_strict _ _ hf
    simp only [detect_citation_style]
    rw [if_pos ?hc]
    case hc =>
      simp only [Bool.or_eq_true, decide_eq_true_eq]
      cases f <;> simp only [famCount] at hpos <;> tauto
    rw [argmax_of_strict (tallyCitations paras) f hf]
  · intro paras h0
    simp [detect_citation_style, h0]

/-- C7 witness: the strict-majority selection instantiated at the
concrete [1], [2], [3] paragraphs with the numeric-bracket family. -/
theorem C7_citation_witness :
    detect_citation_style exParasC7
      = { detected_style := styleLabel Family.numeric_bracket
          citation_counts := tallyCitations exParasC7 } :=
  C7_citation.1 exParasC7 Family.numeric_bracket (by decide)

theorem asc_eq (r : StyleRules) (dfl : Role → Option Fmt) (sec : Sec) (pfx : List Char) :
    add_section_content r dfl sec pfx
      = Para.mk (headingText sec pfx)
          (get_role_format r (Role.heading (sec.level.getD 1))
            (dfl (Role.heading (sec.level.getD 1))))
        :: (sec.content.filter (fun tx => pyStrip tx ≠ [])).map
            (fun tx => Para.mk tx (get_role_format r Role.body (dfl Role.body)))
        ++ add_subsections r dfl sec.subsections pfx 1 := by
  cases sec
  rfl

theorem heading_mem_asc (r : StyleRules) (dfl : Role → Option Fmt) (sec : Sec)
    (pfx : List Char) :
    Para.mk (headingText sec pfx)
        (get_role_format r (Role.heading (sec.level.getD 1))
          (dfl (Role.heading (sec.level.getD 1))))
      ∈ add_section_content r dfl sec pfx := by
  rw [asc_eq]
  exact List.mem_cons_self _ _

theorem mem_asc_of_mem_subs (r : StyleRules) (dfl : Role → Option Fmt) (sec : Sec)
    (pfx : List Char) (x : Para)
    (hx : x ∈ add_subsections r dfl sec.subsections pfx 1) :
    x ∈ add_section_content r dfl sec pfx := by
  rw [asc_eq]
  exact List.mem_cons_of_mem _ (List.mem_append.mpr (Or.inr hx))

theorem mem_add_subsections (r : StyleRules) (dfl : Role → Option Fmt) :
    ∀ (subs : List Sec) (pfx : List Char) (i j : Nat) (t : Sec) (x : Para),
      subs[j]? = some t →
      x ∈ add_section_content r dfl t (subPfx pfx (i + j)) →
      x ∈ add_subsections r dfl subs pfx i := by
  intro subs
  induction subs with
  | nil => intro pfx i j t x h _; simp at h
  | cons s rest ih =>
    intro pfx i j t x h hx
    cases j with
    | zero =>
      have hst : s = t := by simpa using h
      subst hst
      rw [Nat.add_zero] at hx
      simp only [add_subsections]
      exact List.mem_append.mpr (Or.inl hx)
    | succ j2 =>
      have h2 : rest[j2]? = some t := by simpa using h
      have hx2 : x ∈ add_section_content r dfl t (subPfx pfx ((i + 1) + j2)) := by
        rw [show (i + 1) + j2 = i + (j2 + 1) from by omega]
        exact hx
      simp only [add_subsections]
      exact List.mem_append.mpr (Or.inr (ih pfx (i + 1) j2 t x h2 hx2))

theorem mem_add_sections_from (r : StyleRules) (dfl : Role → Option Fmt) :
    ∀ (secs : List Sec) (i j : Nat) (s : Sec) (x : Para),
      secs[j]? = some s →
      x ∈ add_section_content r dfl s (natDigits (i + j)) →
      x ∈ add_sections_from r dfl secs i := by
  intro secs
  induction secs with
  | nil => intro i j s x h _; simp at h
  | cons s0 rest ih =>
    intro i j s x h hx
    cases j with
    | zero =>
      have hst : s0 = s := by simpa using h
      subst hst
      rw [Nat.add_zero] at hx
      simp only [add_sections_from]
      exact List.mem_append.mpr (Or.inl hx)
    | succ j2 =>
      have h2 : rest[j2]? = some s := by simpa using h
      have hx2 : x ∈ add_section_content r dfl s (natDigits ((i + 1) + j2)) := by
        rw [show (i + 1) + j2 = i + (j2 + 1) from by omega]
        exact hx
      simp only [add_sections_from]
      exact List.mem_append.mpr (Or.inr (ih (i + 1) j2 s x h2 hx2))

theorem mem_format_document_sections (c : Content) (r : StyleRules) (x : Para)
    (hx : x ∈ add_sections_from r build_default_formats c.sections 1) :
    x ∈ format_document c r := by
  simp only [format_document, List.mem_append]
  tauto

/-- C8: in the flowing-document backend, the second top-level section's
heading is numbered `2`, its `j+1`-st subsection's heading `2.<j+1>`, and
that subsection's `k+1`-st subsection's heading `2.<j+1>.<k+1>` — the
dotted prefix at each depth reflects the 1-based sibling indices along
the path, whenever the headings on the path are non-empty. -/
theorem C8_numbering :
    ∀ (c : Content) (r : StyleRules) (s0 s t u : Sec) (rest : List Sec) (j k : Nat),
      c.sections = s0 :: s :: rest →
      s.subsections[j]? = some t →
      t.subsections[k]? = some u →
      s.heading ≠ [] → t.heading ≠ [] → u.heading ≠ [] →
      ('2' :: ' ' :: s.heading) ∈ (format_document c r).map Para.text
      ∧ ('2' :: '.' :: natDigits (j + 1) ++ ' ' :: t.heading)
          ∈ (format_document c r).map Para.text
      ∧ ('2' :: '.' :: (natDigits (j + 1) ++ '.' :: natDigits (k + 1)) ++ ' ' :: u.heading)
          ∈ (format_document c r).map Para.text := by
  intro c r s0 s t u rest j k hsec hj hk hs ht hu
  have hp1 : natDigits 2 = ['2'] := by decide
  have hdoc : ∀ x : Para, x ∈ add_section_content r build_default_formats s ['2'] →
      x ∈ format_document c r := by
    intro x hx
    refine mem_format_document_sections c r x ?_
    rw [hsec]
    refine mem_add_sections_from r build_default_formats (s0 :: s :: rest) 1 1 s x (by simp) ?_
    rw [show (1 + 1 : Nat) = 2 from rfl, hp1]
    exact hx
  have hp2 : subPfx ['2'] (1 + j) = '2' :: '.' :: natDigits (j + 1) := by
    rw [Nat.add_comm 1 j]
    simp [subPfx]
  have hp2ne : ('2' :: '.' :: natDigits (j + 1) : List Char) ≠ [] := by simp
  have hp3 : subPfx ('2' :: '.' :: natDigits (j + 1)) (1 + k)
      = '2' :: '.' :: (natDigits (j + 1) ++ '.' :: natDigits (k + 1)) := by
    rw [Nat.add_comm 1 k]
    simp [subPfx]
  have hmem_t : ∀ x : Para,
      x ∈ add_section_content r build_default_formats t ('2' :: '.' :: natDigits (j + 1)) →
      x ∈ format_document c r := by
    intro x hx
    refine hdoc x (mem_asc_of_mem_subs r build_default_formats s ['2'] x ?_)
    refine mem_add_subsections r build_default_formats s.subsections ['2'] 1 j t x hj ?_
    rw [hp2]
    exact hx
  refine ⟨?_, ?_, ?_⟩
  · have hm := heading_mem_asc r build_default_formats s ['2']
    have hht : headingText s ['2'] = '2' :: ' ' :: s.heading := by
      simp [headingText, hs]
    rw [hht] at hm
    exact List.mem_map_of_mem Para.text (hdoc _ hm)
  · have hm := heading_mem_asc r build_default_formats t ('2' :: '.' :: natDigits (j + 1))
    have hht : headingText t ('2' :: '.' :: natDigits (j + 1))
        = '2' :: '.' :: natDigits (j + 1) ++ ' ' :: t.heading := by
      simp [headingText, ht]
    rw [hht] at hm
    exact List.mem_map_of_mem Para.text (hmem_t _ hm)
  · have hm := heading_mem_asc r build_default_formats u
      ('2' :: '.' :: (natDigits (j + 1) ++ '.' :: natDigits (k + 1)))
    have hht : headingText u ('2' :: '.' :: (natDigits (j + 1) ++ '.' :: natDigits (k + 1)))
        = '2' :: '.' :: (natDigits (j + 1) ++ '.' :: natDigits (k + 1)) ++ ' ' :: u.heading := by
      simp [headingText, hu]
    rw [hht] at hm
    have hstep : ∀ x : Para,
        x ∈ add_section_content r build_default_formats u
          ('2' :: '.' :: (natDigits (j + 1) ++ '.' :: natDigits (k + 1))) →
        x ∈ format_document c r := by
      intro x hx
      refine hmem_t x (mem_asc_of_mem_subs r build_default_formats t _ x ?_)
      refine mem_add_subsections r build_default_formats t.subsections
        ('2' :: '.' :: natDigits (j + 1)) 1 k u x hk ?_
      rw [hp3]
      exact hx
    exact List.mem_map_of_mem Para.text (hstep _ hm)

/-- C8 witness: the numbering instantiated at a concrete content tree
whose second section "Methods" has a subsection "Data" with a subsection
"Cleaning": the emitted heading texts include "2 Methods", "2.1 Data" and
"2.1.1 Cleaning". -/
theorem C8_numbering_witness :
    ("2 Methods".toList) ∈ (format_document exContentC8 exRulesEmpty).map Para.text
    ∧ ("2.1 Data".toList) ∈ (format_document exContentC8 exRulesEmpty).map Para.text
    ∧ ("2.1.1 Cleaning".toList) ∈ (format_document exContentC8 exRulesEmpty).map Para.text := by
  have h := C8_numbering exContentC8 exRulesEmpty
    (Sec.mk ("Introduction".toList) (some 1) [] [])
    (Sec.mk ("Methods".toList) (some 1) ["We describe the setup.".toList]
      [Sec.mk ("Data".toList) (some 2) [] [Sec.mk ("Cleaning".toList) (some 3) [] []]])
    (Sec.mk ("Data".toList) (some 2) [] [Sec.mk ("Cleaning".toList) (some 3) [] []])
    (Sec.mk ("Cleaning".toList) (some 3) [] [])
    [] 0 0 rfl rfl rfl (by decide) (by decide) (by decide)
  exact h

theorem pyMerge_none_right {α : Type} (x : Option α) : pyMerge x none = x := by
  cases x <;> rfl

/-- C9: a margin extracted as 0 is treated identically to an absent
margin — replacing any margin's value 0 by absence leaves the geometry
line unchanged — and when all four margins are 0 or absent the output is
exactly the uniform 2.54cm default on all four sides. -/
theorem C9_geometry :
    (∀ r : StyleRules,
      build_geometry (setTopMargin r (some 0)) = build_geometry (setTopMargin r none)
      ∧ build_geometry (setBottomMargin r (some 0)) = build_geometry (setBottomMargin r none)
      ∧ build_geometry (setLeftMargin r (some 0)) = build_geometry (setLeftMargin r none)
      ∧ build_geometry (setRightMargin r (some 0)) = build_geometry (setRightMargin r none))
    ∧ (∀ r : StyleRules,
        ((r.page_layout.headD {}).margins.top_cm = none
          ∨ (r.page_layout.headD {}).margins.top_cm = some 0) →
        ((r.page_layout.headD {}).margins.bottom_cm = none
          ∨ (r.page_layout.headD {}).margins.bottom_cm = some 0) →
        ((r.page_layout.headD {}).margins.left_cm = none
          ∨ (r.page_layout.headD {}).margins.left_cm = some 0) →
        ((r.page_layout.headD {}).margins.right_cm = none
          ∨ (r.page_layout.headD {}).margins.right_cm = some 0) →
        build_geometry r
          = "\\usepackage[top=2.54cm, bottom=2.54cm, left=2.54cm, right=2.54cm".toList
            ++ ']' :: '{' :: "geometry".toList ++ ['}']) := by
  constructor
  · intro r
    obtain ⟨pf, layout⟩ := r
    cases layout with
    | nil => exact ⟨rfl, rfl, rfl, rfl⟩
    | cons ps rest => exact ⟨rfl, rfl, rfl, rfl⟩
  · intro r h1 h2 h3 h4
    obtain ⟨pf, layout⟩ := r
    cases layout with
    | nil => rfl
    | cons ps rest =>
      obtain ⟨⟨mt, mb, ml, mr⟩, pp, pc⟩ := ps
      simp only [List.headD_cons] at h1 h2 h3 h4
      rcases h1 with rfl | rfl <;> rcases h2 with rfl | rfl <;>
        rcases h3 with rfl | rfl <;> rcases h4 with rfl | rfl <;> rfl

/-- C9 witness: the all-zero-margins style rules yield exactly the
uniform default geometry line. -/
theorem C9_geometry_witness :
    build_geometry exRulesC9
      = "\\usepackage[top=2.54cm, bottom=2.54cm, left=2.54cm, right=2.54cm".toList
        ++ ']' :: '{' :: "geometry".toList ++ ['}'] :=
  C9_geometry.2 exRulesC9 (Or.inr rfl) (Or.inr rfl) (Or.inr rfl) (Or.inr rfl)

/-- C10: hardcoded heading defaults exist only for levels 1-3: for every
level of at least 4 the default lookup yields nothing, the heading
paragraph of a section at that level is formatted by resolving against no
default, and the resolution yields exactly the extracted fields — the
empty record when the Style-Rule Model never observed that role. -/
theorem C10_deep_headings :
    ∀ (r : StyleRules) (n : Nat), 4 ≤ n →
      build_default_formats (Role.heading n) = none
      ∧ (∀ (sec : Sec) (pfx : List Char), sec.level = some n →
          (add_section_content r build_default_formats sec pfx).head?
            = some (Para.mk (headingText sec pfx)
                (get_role_format r (Role.heading n) none)))
      ∧ (r.paragraph_formatting (Role.heading n) = none →
          get_role_format r (Role.heading n) (build_default_formats (Role.heading n))
            = emptyFmt)
      ∧ (∀ rd, r.paragraph_formatting (Role.heading n) = some rd →
          get_role_format r (Role.heading n) (build_default_formats (Role.heading n))
            = onlyExtracted rd) := by
  intro r n hn
  have hd : build_default_formats (Role.heading n) = none := by
    simp only [build_default_formats]
    rw [if_neg (by omega), if_neg (by omega), if_neg (by omega)]
  refine ⟨hd, ?_, ?_, ?_⟩
  · intro sec pfx hlvl
    rw [asc_eq]
    simp [hlvl, hd]
  · intro hpf
    rw [hd]
    simp [get_role_format, hpf, emptyFmt]
  · intro rd hpf
    rw [hd]
    simp [get_role_format, hpf, onlyExtracted, pyMerge_none_right, emptyFmt]

/-- C10 witness: at level 4 with empty style rules, the default lookup is
`none`, resolution yields the empty record, and the heading paragraph of
a level-4 section carries exactly that no-default resolution. -/
theorem C10_deep_headings_witness :
    build_default_formats (Role.heading 4) = none
    ∧ get_role_format exRulesEmpty (Role.heading 4) (build_default_formats (Role.heading 4))
        = emptyFmt
    ∧ (add_section_content exRulesEmpty build_default_formats exSecC10 []).head?
        = some (Para.mk (headingText exSecC10 [])
            (get_role_format exRulesEmpty (Role.heading 4) none)) := by
  obtain ⟨h1, h2, h3, _⟩ := C10_deep_headings exRulesEmpty 4 (by omega)
  exact ⟨h1, h3 rfl, h2 exSecC10 [] rfl⟩
